import Mathlib

/-!
Verification of the trace-context framing codec of `contrib/go-nsq`
(`inject` / `extract` in `utils.go`).

Byte sequences are modelled as `List Nat` (each element a byte value);
Go slices are modelled by their visible contents (capacity = length), so a
slice expression `body[4 : 4+bs]` with `4+bs > len(body)` is a runtime
crash ("slice bounds out of range"), modelled by a distinguished result.
-/

/-- Trace context as exposed by `ddtrace.SpanContext`: the `TraceID()` and
`SpanID()` accessors, both `uint64` in Go, modelled as `Nat`. -/
structure SpanContext where
  TraceID : Nat
  SpanID : Nat
deriving DecidableEq, Repr

/-- A span, modelled by the only capability `inject` uses: `span.Context()`. -/
structure Span where
  Context : SpanContext
deriving DecidableEq, Repr

/-- Modelled from the spec: the external collaborators of the codec that are
not part of this repository's sources — the tracer's propagation API
(`tracer.Inject` filling a `TextMapCarrier`, `tracer.Extract` reconstructing a
context from one) and the carrier byte serialization (`encoding/gob`).
`C` is the carrier type; each operation may fail with an error string, as the
Go originals return `error`. -/
structure TracerEnv (C : Type) where
  inj : SpanContext → Except String C
  ext : C → Except String SpanContext
  enc : C → Except String (List Nat)
  dec : List Nat → Except String C

/-- Big-endian 4-byte encoding of a `uint32` value, as written by
`binary.BigEndian.PutUint32`. The argument is the already-truncated
32-bit value. -/
def putUint32 (v : Nat) : List Nat :=
  [v / 2 ^ 24 % 256, v / 2 ^ 16 % 256, v / 2 ^ 8 % 256, v % 256]

/-- Big-endian read of the first four bytes, as `binary.BigEndian.Uint32`
applied to `body[:4]` (callers guarantee at least four bytes; on shorter
lists the value is irrelevant and defaults to 0). -/
def beUint32 : List Nat → Nat
  | a :: b :: c :: d :: _ => ((a * 256 + b) * 256 + c) * 256 + d
  | _ => 0

/-- Result of `extract`: either a Go runtime crash (out-of-range slice), or
the triple `(ddtrace.SpanContext, []byte, error)` that the function returns,
with `none` standing for Go's `nil` in each component. -/
inductive ExtractResult where
  | crash (msg : String)
  | ret (spnctx : Option SpanContext) (msgbody : Option (List Nat)) (err : Option String)
deriving DecidableEq, Repr

/-- `inject` from `contrib/go-nsq/utils.go`: frames `body` as
`4-byte big-endian length ‖ body` and, when the span has a non-zero trace id,
appends the gob-encoded `TextMapCarrier` produced by `tracer.Inject`.
The Go `uint32(bs)` conversion is `bs % 2^32`. -/
def inject {C : Type} (env : TracerEnv C) (span : Span) (body : List Nat) :
    Except String (List Nat) :=
  let bs := body.length
  let bsb := putUint32 (bs % 2 ^ 32)
  let bts := bsb ++ body
  if span.Context.TraceID = 0 then
    .ok bts
  else
    match env.inj span.Context with
    | .error e => .error e
    | .ok carri =>
      match env.enc carri with
      | .error e => .error e
      | .ok encoded => .ok (bts ++ encoded)

/-- `extract` from `contrib/go-nsq/utils.go`: reads the 4-byte length prefix,
slices out the message body (crashing, like the Go slice expression
`body[4 : 4+bs]`, when `4+bs` exceeds the input length), and decodes any
trailing bytes as a gob carrier handed to `tracer.Extract`. -/
def extract {C : Type} (env : TracerEnv C) (body : List Nat) : ExtractResult :=
  if body.length < 4 then
    .ret none none (some "length of message body is too small")
  else
    let bs := beUint32 body
    if body.length < 4 + bs then
      .crash "slice bounds out of range"
    else
      let msgbody := (body.drop 4).take bs
      if 4 + bs = body.length then
        .ret none (some msgbody) none
      else
        match env.dec (body.drop (4 + bs)) with
        | .error e => .ret none (some body) (some e)
        | .ok carri =>
          match env.ext carri with
          | .ok spnctx => .ret (some spnctx) (some msgbody) none
          | .error e => .ret none (some msgbody) (some e)

/-- A concrete trace context used for witnesses. -/
def ctx0 : SpanContext := ⟨5, 7⟩

/-- A concrete span with a non-zero trace id. -/
def span0 : Span := ⟨ctx0⟩

/-- A concrete span with a zero trace id (the "no active trace" case). -/
def spanZ : Span := ⟨⟨0, 9⟩⟩

/-- A concrete instantiation of the external tracer/serializer in which the
carrier type is the context itself, serialization always yields the one-byte
blob `[42]`, and deserialization succeeds exactly on that blob. -/
def env0 : TracerEnv SpanContext where
  inj := fun c => .ok c
  ext := fun c => .ok c
  enc := fun _ => .ok [42]
  dec := fun l => if l = [42] then .ok ctx0 else .error "gob: decode error"

/-- A concrete environment whose context injection fails. -/
def envInjFail : TracerEnv SpanContext :=
  { env0 with inj := fun _ => .error "inject: serialization error" }

/-- A concrete environment whose carrier encoding fails. -/
def envEncFail : TracerEnv SpanContext :=
  { env0 with enc := fun _ => .error "gob: encode error" }

/-- A concrete environment in which the carrier decodes but context
reconstruction fails. -/
def envExtFail : TracerEnv SpanContext :=
  { env0 with ext := fun _ => .error "spancontext not found" }

/-- A body of length `2 ^ 32`, at which the `uint32` length cast wraps. -/
def bigBody : List Nat := List.replicate (2 ^ 32) 0

theorem putUint32_length (v : Nat) : (putUint32 v).length = 4 := rfl

theorem beUint32_putUint32 (v : Nat) (r : List Nat) (h : v < 2 ^ 32) :
    beUint32 (putUint32 v ++ r) = v := by
  simp only [putUint32, List.cons_append, List.nil_append, beUint32]
  omega

theorem bigBody_length : bigBody.length = 2 ^ 32 := by
  rw [bigBody, List.length_replicate]

/-- Evaluation of `inject` for a zero trace id: the bare frame, no blob. -/
theorem inject_zero {C : Type} (env : TracerEnv C) (span : Span) (b : List Nat)
    (h : span.Context.TraceID = 0) :
    inject env span b = .ok (putUint32 (b.length % 2 ^ 32) ++ b) := by
  simp [inject, h]

/-- Evaluation of `inject` when context injection and carrier encoding both
succeed: the frame with the encoded carrier appended. -/
theorem inject_ok {C : Type} (env : TracerEnv C) (span : Span) (b : List Nat)
    (carri : C) (encb : List Nat)
    (h : span.Context.TraceID ≠ 0)
    (hinj : env.inj span.Context = .ok carri)
    (henc : env.enc carri = .ok encb) :
    inject env span b = .ok ((putUint32 (b.length % 2 ^ 32) ++ b) ++ encb) := by
  simp [inject, h, hinj, henc]

/-- Evaluation of `inject` when `tracer.Inject` fails. -/
theorem inject_injErr {C : Type} (env : TracerEnv C) (span : Span) (b : List Nat)
    (e : String) (h : span.Context.TraceID ≠ 0)
    (hinj : env.inj span.Context = .error e) :
    inject env span b = .error e := by
  simp [inject, h, hinj]

/-- Evaluation of `inject` when the gob encoder fails. -/
theorem inject_encErr {C : Type} (env : TracerEnv C) (span : Span) (b : List Nat)
    (carri : C) (e : String) (h : span.Context.TraceID ≠ 0)
    (hinj : env.inj span.Context = .ok carri)
    (henc : env.enc carri = .error e) :
    inject env span b = .error e := by
  simp [inject, h, hinj, henc]

/-- Evaluation of `extract` on inputs shorter than the length prefix. -/
theorem extract_short {C : Type} (env : TracerEnv C) (input : List Nat)
    (h : input.length < 4) :
    extract env input = .ret none none (some "length of message body is too small") := by
  simp [extract, h]

/-- Evaluation of `extract` when the declared body length overruns the input:
the Go slice expression crashes. -/
theorem extract_crash {C : Type} (env : TracerEnv C) (input : List Nat)
    (h4 : 4 ≤ input.length) (h : input.length < 4 + beUint32 input) :
    extract env input = .crash "slice bounds out of range" := by
  simp [extract, Nat.not_lt.2 h4, h]

/-- Evaluation of `extract` when the frame is exactly prefix plus body. -/
theorem extract_noctx {C : Type} (env : TracerEnv C) (input : List Nat)
    (h4 : 4 ≤ input.length) (h : 4 + beUint32 input = input.length) :
    extract env input = .ret none (some ((input.drop 4).take (beUint32 input))) none := by
  have h2 : ¬ input.length < 4 + beUint32 input := by omega
  simp [extract, Nat.not_lt.2 h4, h2, h]

/-- Evaluation of `extract` when trailing bytes fail to gob-decode: the error
is returned together with the original, full input. -/
theorem extract_decErr {C : Type} (env : TracerEnv C) (input : List Nat) (e : String)
    (h1 : 4 + beUint32 input < input.length)
    (h2 : env.dec (input.drop (4 + beUint32 input)) = .error e) :
    extract env input = .ret none (some input) (some e) := by
  have h4 : ¬ input.length < 4 := by omega
  have h5 : ¬ input.length < 4 + beUint32 input := by omega
  have h6 : ¬ 4 + beUint32 input = input.length := by omega
  simp [extract, h4, h5, h6, h2]

/-- Evaluation of `extract` when the carrier decodes and `tracer.Extract`
succeeds. -/
theorem extract_extOk {C : Type} (env : TracerEnv C) (input : List Nat)
    (carri : C) (ctx2 : SpanContext)
    (h1 : 4 + beUint32 input < input.length)
    (hdec : env.dec (input.drop (4 + beUint32 input)) = .ok carri)
    (hext : env.ext carri = .ok ctx2) :
    extract env input =
      .ret (some ctx2) (some ((input.drop 4).take (beUint32 input))) none := by
  have h4 : ¬ input.length < 4 := by omega
  have h5 : ¬ input.length < 4 + beUint32 input := by omega
  have h6 : ¬ 4 + beUint32 input = input.length := by omega
  simp [extract, h4, h5, h6, hdec, hext]

/-- Length of a framed message `prefix ‖ body ‖ rest`. -/
theorem frame_length (L : Nat) (b r : List Nat) :
    ((putUint32 L ++ b) ++ r).length = 4 + b.length + r.length := by
  simp [List.length_append, putUint32_length]
  omega

/-- The length prefix of a framed message reads back as written. -/
theorem frame_beUint32 (L : Nat) (b r : List Nat) (h : L < 2 ^ 32) :
    beUint32 ((putUint32 L ++ b) ++ r) = L := by
  rw [List.append_assoc]
  exact beUint32_putUint32 L (b ++ r) h

/-- Dropping the 4-byte prefix of a framed message. -/
theorem frame_drop4 (L : Nat) (b r : List Nat) :
    ((putUint32 L ++ b) ++ r).drop 4 = b ++ r := by
  rw [List.append_assoc]
  exact List.drop_left' (putUint32_length L)

/-- The body slice of a framed message whose prefix is the body length. -/
theorem frame_body (L : Nat) (b r : List Nat) (h : b.length = L) :
    (((putUint32 L ++ b) ++ r).drop 4).take L = b := by
  rw [frame_drop4]
  exact List.take_left' h

/-- The trailing blob of a framed message whose prefix is the body length. -/
theorem frame_rest (L : Nat) (b r : List Nat) (h : b.length = L) :
    ((putUint32 L ++ b) ++ r).drop (4 + L) = r := by
  apply List.drop_left'
  simp [List.length_append, putUint32_length, h]

/-- Every successful `inject` output is the 4-byte truncated length prefix,
then the body verbatim, then a (possibly empty) trailing blob. -/
theorem inject_shape {C : Type} (env : TracerEnv C) (span : Span) (b out : List Nat)
    (h : inject env span b = .ok out) :
    ∃ rest, out = (putUint32 (b.length % 2 ^ 32) ++ b) ++ rest := by
  simp only [inject] at h
  split at h
  · injection h with h
    exact ⟨[], by rw [List.append_nil, h]⟩
  · split at h
    · exact Except.noConfusion h
    · split at h
      · exact Except.noConfusion h
      · injection h with h
        exact ⟨_, h.symm⟩

/-- Whatever `extract` returns as the body is `nil`, the full input, or the
slice `input[4 : 4+prefix]` — never anything else. -/
theorem extract_ret_body {C : Type} (env : TracerEnv C) (input : List Nat)
    (c : Option SpanContext) (bo : Option (List Nat)) (e : Option String)
    (h : extract env input = .ret c bo e) :
    bo = none ∨ bo = some input ∨
      bo = some ((input.drop 4).take (beUint32 input)) := by
  simp only [extract] at h
  split at h
  · injection h with h1 h2 h3
    exact Or.inl h2.symm
  · split at h
    · exact ExtractResult.noConfusion h
    · split at h
      · injection h with h1 h2 h3
        exact Or.inr (Or.inr h2.symm)
      · split at h
        · injection h with h1 h2 h3
          exact Or.inr (Or.inl h2.symm)
        · split at h
          · injection h with h1 h2 h3
            exact Or.inr (Or.inr h2.symm)
          · injection h with h1 h2 h3
            exact Or.inr (Or.inr h2.symm)

/-- A list extended by `bigBody` is never the one-byte blob `[42]`. -/
theorem bigBody_append_ne (r : List Nat) : bigBody ++ r ≠ [42] := by
  intro h
  have hl := congrArg List.length h
  rw [List.length_append, bigBody_length] at hl
  simp at hl
  omega

/-- The concrete decoder rejects everything except the blob `[42]`. -/
theorem env0_dec_of_ne (l : List Nat) (h : l ≠ [42]) :
    env0.dec l = .error "gob: decode error" := by
  simp [env0, h]

/-- Evaluation of `extract` when the carrier decodes but `tracer.Extract`
fails: the de-framed body is still returned, with no context. -/
theorem extract_extErr {C : Type} (env : TracerEnv C) (input : List Nat)
    (carri : C) (e : String)
    (h1 : 4 + beUint32 input < input.length)
    (hdec : env.dec (input.drop (4 + beUint32 input)) = .ok carri)
    (hext : env.ext carri = .error e) :
    extract env input =
      .ret none (some ((input.drop 4).take (beUint32 input))) (some e) := by
  have h4 : ¬ input.length < 4 := by omega
  have h5 : ¬ input.length < 4 + beUint32 input := by omega
  have h6 : ¬ 4 + beUint32 input = input.length := by omega
  simp [extract, h4, h5, h6, hdec, hext]

/-- A list never equals `[42]` when its length is not 1 (helper for the
concrete decoder). -/
theorem bigBody_ne : bigBody ≠ [42] := by
  have h := bigBody_append_ne []
  rwa [List.append_nil] at h

/-- Claim C2: on an input of length at least 4 whose big-endian prefix
declares a body length overrunning the input, `extract` does not return a
malformed-frame error — it evaluates the Go slice expression
`body[4 : 4+bs]` with `4+bs > len(body)` and crashes. Concretely, the
4-byte input `[0,0,0,1]` declares a 1-byte body and crashes. -/
theorem c2_declared_length_overrun_crash :
    extract env0 [0, 0, 0, 1] = .crash "slice bounds out of range" := rfl

/-- Claim C4: whenever the input is strictly longer than 4 plus the declared
body length and the trailing bytes fail to decode as a carrier, `extract`
returns the error together with the original, full input as the body — not
the extracted slice. -/
theorem c4_deser_error_returns_full_input {C : Type} (env : TracerEnv C)
    (input : List Nat) (e : String)
    (h1 : 4 + beUint32 input < input.length)
    (h2 : env.dec (input.drop (4 + beUint32 input)) = .error e) :
    extract env input = .ret none (some input) (some e) :=
  extract_decErr env input e h1 h2

theorem c4_deser_error_returns_full_input_witness :
    4 + beUint32 [0, 0, 0, 0, 99] < ([0, 0, 0, 0, 99] : List Nat).length ∧
      extract env0 [0, 0, 0, 0, 99] =
        .ret none (some [0, 0, 0, 0, 99]) (some "gob: decode error") :=
  ⟨by decide, c4_deser_error_returns_full_input env0 [0, 0, 0, 0, 99] _ (by decide) rfl⟩

/-- Claim C5: decoding any input of fewer than 4 bytes fails with the
malformed-frame error and returns neither a body nor a context. -/
theorem c5_short_input_rejected {C : Type} (env : TracerEnv C) (input : List Nat)
    (h : input.length < 4) :
    extract env input =
      .ret none none (some "length of message body is too small") :=
  extract_short env input h

theorem c5_short_input_rejected_witness :
    ([250, 251, 252] : List Nat).length < 4 ∧
      extract env0 [250, 251, 252] =
        .ret none none (some "length of message body is too small") :=
  ⟨by decide, c5_short_input_rejected env0 [250, 251, 252] (by decide)⟩

/-- Claim C7: for a span with a non-zero trace id, if context injection or
carrier encoding fails then `inject` returns only the error — no partial
frame of prefix plus body is produced. -/
theorem c7_no_partial_frame {C : Type} (env : TracerEnv C) (span : Span)
    (body : List Nat) (h : span.Context.TraceID ≠ 0) :
    (∀ e, env.inj span.Context = .error e → inject env span body = .error e) ∧
    (∀ carri e, env.inj span.Context = .ok carri → env.enc carri = .error e →
      inject env span body = .error e) :=
  ⟨fun e he => inject_injErr env span body e h he,
   fun carri e hc he => inject_encErr env span body carri e h hc he⟩

theorem c7_no_partial_frame_witness :
    span0.Context.TraceID ≠ 0 ∧
      inject envInjFail span0 [1, 2] = .error "inject: serialization error" ∧
      inject envEncFail span0 [1, 2] = .error "gob: encode error" :=
  ⟨by decide,
   (c7_no_partial_frame envInjFail span0 [1, 2] (by decide)).1 _ rfl,
   (c7_no_partial_frame envEncFail span0 [1, 2] (by decide)).2 ctx0 _ rfl rfl⟩

/-- Claim C8: when the trailing carrier bytes decode but trace-context
reconstruction fails, `extract` returns the correctly de-framed body slice
`input[4 : 4+prefix]`, an absent context, and the reconstruction error. -/
theorem c8_reconstruction_failure_keeps_body {C : Type} (env : TracerEnv C)
    (input : List Nat) (carri : C) (e : String)
    (h1 : 4 + beUint32 input < input.length)
    (hdec : env.dec (input.drop (4 + beUint32 input)) = .ok carri)
    (hext : env.ext carri = .error e) :
    extract env input =
      .ret none (some ((input.drop 4).take (beUint32 input))) (some e) :=
  extract_extErr env input carri e h1 hdec hext

theorem c8_reconstruction_failure_keeps_body_witness :
    4 + beUint32 [0, 0, 0, 1, 7, 42] < ([0, 0, 0, 1, 7, 42] : List Nat).length ∧
      extract envExtFail [0, 0, 0, 1, 7, 42] =
        .ret none (some [7]) (some "spancontext not found") :=
  ⟨by decide,
   c8_reconstruction_failure_keeps_body envExtFail [0, 0, 0, 1, 7, 42] ctx0
     "spancontext not found" (by decide) rfl rfl⟩

/-- Claim C9: with a zero trace id, `inject` never consults the tracer or the
serializer — its output is a function of the body alone, so any two calls
with zero-trace spans yield byte-identical output. -/
theorem c9_zero_trace_deterministic {C D : Type} (env₁ : TracerEnv C)
    (env₂ : TracerEnv D) (span₁ span₂ : Span) (b : List Nat)
    (h₁ : span₁.Context.TraceID = 0) (h₂ : span₂.Context.TraceID = 0) :
    inject env₁ span₁ b = inject env₂ span₂ b := by
  rw [inject_zero env₁ span₁ b h₁, inject_zero env₂ span₂ b h₂]

theorem c9_zero_trace_deterministic_witness :
    spanZ.Context.TraceID = 0 ∧
      inject env0 spanZ [3, 4] = inject envExtFail spanZ [3, 4] :=
  ⟨rfl, c9_zero_trace_deterministic env0 envExtFail spanZ spanZ [3, 4] rfl rfl⟩

/-- The 12-byte body "hello, world" of the spec scenario. -/
def helloBody : List Nat := [104, 101, 108, 108, 111, 44, 32, 119, 111, 114, 108, 100]

/-- Claim C1 (amended): for spans with a non-zero trace id and bodies shorter
than `2 ^ 32` bytes, provided the external tracer and carrier codec behave as
the spec requires (injection, encoding, decoding and extraction succeed, the
encoding is non-empty, decoding inverts encoding, and extraction preserves
the identifiers), `extract` of the `inject` output succeeds with the original
body, no error, and a context carrying the span's trace and span ids. -/
theorem c1_roundtrip_with_context {C : Type} (env : TracerEnv C) (span : Span)
    (b : List Nat) (carri : C) (encb : List Nat) (ctx' : SpanContext)
    (hb : b.length < 2 ^ 32)
    (h0 : span.Context.TraceID ≠ 0)
    (hinj : env.inj span.Context = .ok carri)
    (henc : env.enc carri = .ok encb)
    (hne : encb ≠ [])
    (hdec : env.dec encb = .ok carri)
    (hext : env.ext carri = .ok ctx')
    (hTid : ctx'.TraceID = span.Context.TraceID)
    (hSid : ctx'.SpanID = span.Context.SpanID) :
    inject env span b = .ok ((putUint32 b.length ++ b) ++ encb) ∧
    extract env ((putUint32 b.length ++ b) ++ encb) = .ret (some ctx') (some b) none ∧
    ctx'.TraceID = span.Context.TraceID ∧ ctx'.SpanID = span.Context.SpanID := by
  have hmod : b.length % 2 ^ 32 = b.length := Nat.mod_eq_of_lt hb
  refine ⟨?_, ?_, hTid, hSid⟩
  · rw [inject_ok env span b carri encb h0 hinj henc, hmod]
  · have hbe : beUint32 ((putUint32 b.length ++ b) ++ encb) = b.length :=
      frame_beUint32 b.length b encb hb
    have hlen : ((putUint32 b.length ++ b) ++ encb).length = 4 + b.length + encb.length :=
      frame_length b.length b encb
    have hpos : 0 < encb.length := List.length_pos.2 hne
    have h1 : 4 + beUint32 ((putUint32 b.length ++ b) ++ encb) <
        ((putUint32 b.length ++ b) ++ encb).length := by
      rw [hbe, hlen]; omega
    have hdrop : ((putUint32 b.length ++ b) ++ encb).drop
        (4 + beUint32 ((putUint32 b.length ++ b) ++ encb)) = encb := by
      rw [hbe]; exact frame_rest b.length b encb rfl
    have h2 : env.dec (((putUint32 b.length ++ b) ++ encb).drop
        (4 + beUint32 ((putUint32 b.length ++ b) ++ encb))) = .ok carri := by
      rw [hdrop]; exact hdec
    have h3 := extract_extOk env ((putUint32 b.length ++ b) ++ encb) carri ctx' h1 h2 hext
    rw [h3, hbe, frame_body b.length b encb rfl]

theorem c1_roundtrip_with_context_witness :
    inject env0 span0 [9, 9] = .ok ((putUint32 2 ++ [9, 9]) ++ [42]) ∧
      extract env0 ((putUint32 2 ++ [9, 9]) ++ [42]) = .ret (some ctx0) (some [9, 9]) none ∧
      ctx0.TraceID = span0.Context.TraceID ∧ ctx0.SpanID = span0.Context.SpanID :=
  c1_roundtrip_with_context env0 span0 [9, 9] ctx0 [42] ctx0 (by decide) (by decide)
    rfl rfl (by decide) rfl rfl rfl rfl

/-- Claim C1 counterexample: at the body of length `2 ^ 32`, with a non-zero
trace id and a well-behaved carrier codec, decoding the encoded message does
not return the original body and does not succeed — the wrapped length
prefix reads 0, so the carrier decoder is fed the whole body plus blob,
fails, and the full framed input is returned with an error. -/
theorem c1_roundtrip_big_body_cex :
    span0.Context.TraceID ≠ 0 ∧
    inject env0 span0 bigBody = .ok ((putUint32 0 ++ bigBody) ++ [42]) ∧
    extract env0 ((putUint32 0 ++ bigBody) ++ [42]) =
      .ret none (some ((putUint32 0 ++ bigBody) ++ [42])) (some "gob: decode error") := by
  refine ⟨by decide, ?_, ?_⟩
  · rw [inject_ok env0 span0 bigBody ctx0 [42] (by decide) rfl rfl, bigBody_length,
      Nat.mod_self]
  · have hbe : beUint32 ((putUint32 0 ++ bigBody) ++ [42]) = 0 := by
      rw [List.append_assoc]
      exact beUint32_putUint32 0 (bigBody ++ [42]) (by norm_num)
    have hlen : ((putUint32 0 ++ bigBody) ++ [42]).length = 4 + 2 ^ 32 + 1 := by
      rw [frame_length, bigBody_length]; rfl
    have h1 : 4 + beUint32 ((putUint32 0 ++ bigBody) ++ [42]) <
        ((putUint32 0 ++ bigBody) ++ [42]).length := by
      rw [hbe, hlen]; norm_num
    have hdrop : ((putUint32 0 ++ bigBody) ++ [42]).drop
        (4 + beUint32 ((putUint32 0 ++ bigBody) ++ [42])) = bigBody ++ [42] := by
      rw [hbe, Nat.add_zero, List.append_assoc]
      exact List.drop_left' (putUint32_length 0)
    have h2 : env0.dec (((putUint32 0 ++ bigBody) ++ [42]).drop
        (4 + beUint32 ((putUint32 0 ++ bigBody) ++ [42]))) = .error "gob: decode error" := by
      rw [hdrop]; exact env0_dec_of_ne _ (bigBody_append_ne [42])
    exact extract_decErr env0 ((putUint32 0 ++ bigBody) ++ [42]) "gob: decode error" h1 h2

/-- Claim C3 (amended): for a zero trace id and a body shorter than `2 ^ 32`
bytes, `inject` cannot fail and yields exactly the 4-byte prefix plus the
body — `4 + len(b)` bytes, no context blob — and `extract` of that output
yields no context, the original body, and no error. -/
theorem c3_zero_trace_roundtrip {C : Type} (env : TracerEnv C) (span : Span)
    (b : List Nat) (hb : b.length < 2 ^ 32) (h0 : span.Context.TraceID = 0) :
    inject env span b = .ok (putUint32 b.length ++ b) ∧
    (putUint32 b.length ++ b).length = 4 + b.length ∧
    extract env (putUint32 b.length ++ b) = .ret none (some b) none := by
  have hmod : b.length % 2 ^ 32 = b.length := Nat.mod_eq_of_lt hb
  have hlen : (putUint32 b.length ++ b).length = 4 + b.length := by
    rw [List.length_append, putUint32_length]
  refine ⟨?_, hlen, ?_⟩
  · rw [inject_zero env span b h0, hmod]
  · have hbe : beUint32 (putUint32 b.length ++ b) = b.length :=
      beUint32_putUint32 b.length b hb
    have h4 : 4 ≤ (putUint32 b.length ++ b).length := by omega
    have heq : 4 + beUint32 (putUint32 b.length ++ b) = (putUint32 b.length ++ b).length := by
      rw [hbe, hlen]
    rw [extract_noctx env (putUint32 b.length ++ b) h4 heq, hbe,
      show (putUint32 b.length ++ b).drop 4 = b from List.drop_left' (putUint32_length b.length),
      List.take_length]

theorem c3_zero_trace_roundtrip_witness :
    spanZ.Context.TraceID = 0 ∧
      inject env0 spanZ [] = .ok [0, 0, 0, 0] ∧
      ([0, 0, 0, 0] : List Nat).length = 4 ∧
      extract env0 [0, 0, 0, 0] = .ret none (some []) none := by
  have h := c3_zero_trace_roundtrip env0 spanZ [] (by decide) rfl
  exact ⟨rfl, h.1, h.2.1, h.2.2⟩

/-- Claim C3 counterexample: at the body of length `2 ^ 32` the encode side
still produces `4 + len(b)` bytes with no blob, but decoding that output
does not yield the original body back — the wrapped prefix reads 0, the body
itself is taken for a carrier blob, fails to decode, and the full input is
returned with an error instead of `(absent, b, nil)`. -/
theorem c3_zero_trace_big_body_cex :
    spanZ.Context.TraceID = 0 ∧
    inject env0 spanZ bigBody = .ok (putUint32 0 ++ bigBody) ∧
    extract env0 (putUint32 0 ++ bigBody) =
      .ret none (some (putUint32 0 ++ bigBody)) (some "gob: decode error") := by
  refine ⟨rfl, ?_, ?_⟩
  · rw [inject_zero env0 spanZ bigBody rfl, bigBody_length, Nat.mod_self]
  · have hbe : beUint32 (putUint32 0 ++ bigBody) = 0 :=
      beUint32_putUint32 0 bigBody (by norm_num)
    have hlen : (putUint32 0 ++ bigBody).length = 4 + 2 ^ 32 := by
      rw [List.length_append, putUint32_length, bigBody_length]
    have h1 : 4 + beUint32 (putUint32 0 ++ bigBody) < (putUint32 0 ++ bigBody).length := by
      rw [hbe, hlen]; norm_num
    have hdrop : (putUint32 0 ++ bigBody).drop
        (4 + beUint32 (putUint32 0 ++ bigBody)) = bigBody := by
      rw [hbe, Nat.add_zero]
      exact List.drop_left' (putUint32_length 0)
    have h2 : env0.dec ((putUint32 0 ++ bigBody).drop
        (4 + beUint32 (putUint32 0 ++ bigBody))) = .error "gob: decode error" := by
      rw [hdrop]; exact env0_dec_of_ne bigBody bigBody_ne
    exact extract_decErr env0 (putUint32 0 ++ bigBody) "gob: decode error" h1 h2

/-- Claim C6 (amended): whenever `inject` succeeds, its output begins with
the 4-byte big-endian encoding of `len(b) mod 2 ^ 32`, immediately followed
by the bytes of `b` verbatim, for every body `b`; whenever
`len(b) < 2 ^ 32` the prefix equals `len(b)` exactly. -/
theorem c6_output_prefix_then_body {C : Type} (env : TracerEnv C) (span : Span)
    (b out : List Nat) (h : inject env span b = .ok out) :
    out.take 4 = putUint32 (b.length % 2 ^ 32) ∧
    beUint32 out = b.length % 2 ^ 32 ∧
    (out.drop 4).take b.length = b ∧
    (b.length < 2 ^ 32 →
      out.take 4 = putUint32 b.length ∧ beUint32 out = b.length) := by
  obtain ⟨rest, hrest⟩ := inject_shape env span b out h
  have hmodlt : b.length % 2 ^ 32 < 2 ^ 32 := Nat.mod_lt _ (by norm_num)
  have htake : out.take 4 = putUint32 (b.length % 2 ^ 32) := by
    rw [hrest, List.append_assoc]
    exact List.take_left' (putUint32_length _)
  have hbe : beUint32 out = b.length % 2 ^ 32 := by
    rw [hrest]
    exact frame_beUint32 _ b rest hmodlt
  have hbody : (out.drop 4).take b.length = b := by
    rw [hrest, frame_drop4]
    exact List.take_left' rfl
  refine ⟨htake, hbe, hbody, fun hlt => ?_⟩
  rw [htake, hbe, Nat.mod_eq_of_lt hlt]
  exact ⟨rfl, rfl⟩

theorem c6_output_prefix_then_body_witness :
    inject env0 span0 helloBody = .ok ((putUint32 12 ++ helloBody) ++ [42]) ∧
      (((putUint32 12 ++ helloBody) ++ [42]).take 4 = putUint32 (helloBody.length % 2 ^ 32) ∧
       beUint32 ((putUint32 12 ++ helloBody) ++ [42]) = helloBody.length % 2 ^ 32 ∧
       (((putUint32 12 ++ helloBody) ++ [42]).drop 4).take helloBody.length = helloBody ∧
       (helloBody.length < 2 ^ 32 →
         ((putUint32 12 ++ helloBody) ++ [42]).take 4 = putUint32 helloBody.length ∧
         beUint32 ((putUint32 12 ++ helloBody) ++ [42]) = helloBody.length)) :=
  ⟨rfl,
   c6_output_prefix_then_body env0 span0 helloBody ((putUint32 12 ++ helloBody) ++ [42]) rfl⟩

/-- Claim C6 counterexample: at the body of length `2 ^ 32`, `inject` succeeds
but its output's 4-byte prefix encodes 0, which is not `len(b) = 2 ^ 32` —
the prefix is not the big-endian encoding of the body length. -/
theorem c6_big_body_cex :
    inject env0 spanZ bigBody = .ok (putUint32 0 ++ bigBody) ∧
    beUint32 (putUint32 0 ++ bigBody) = 0 ∧
    bigBody.length = 2 ^ 32 ∧ (0 : Nat) ≠ 2 ^ 32 := by
  refine ⟨?_, beUint32_putUint32 0 bigBody (by norm_num), bigBody_length, by norm_num⟩
  rw [inject_zero env0 spanZ bigBody rfl, bigBody_length, Nat.mod_self]

/-- Claim C10: `inject` computes the length prefix as `len(body) mod 2 ^ 32`
(the Go `uint32` cast): below `2 ^ 32` the prefix is exact; at `2 ^ 32` and
above the prefix no longer equals the true body length, and no decode of the
framed message — under any carrier codec — can return the original body. -/
theorem c10_uint32_truncation {C D : Type} (env : TracerEnv C) (env2 : TracerEnv D)
    (span : Span) (b out : List Nat)
    (h : inject env span b = .ok out) :
    out.take 4 = putUint32 (b.length % 2 ^ 32) ∧
    beUint32 out = b.length % 2 ^ 32 ∧
    (b.length < 2 ^ 32 → beUint32 out = b.length) ∧
    (2 ^ 32 ≤ b.length →
      beUint32 out ≠ b.length ∧
      ∀ c bo e, extract env2 out = .ret c bo e → bo ≠ some b) := by
  obtain ⟨rest, hrest⟩ := inject_shape env span b out h
  have hmodlt : b.length % 2 ^ 32 < 2 ^ 32 := Nat.mod_lt _ (by norm_num)
  have htake : out.take 4 = putUint32 (b.length % 2 ^ 32) := by
    rw [hrest, List.append_assoc]
    exact List.take_left' (putUint32_length _)
  have hbe : beUint32 out = b.length % 2 ^ 32 := by
    rw [hrest]
    exact frame_beUint32 _ b rest hmodlt
  have hlenout : out.length = 4 + b.length + rest.length := by
    rw [hrest]
    exact frame_length _ b rest
  refine ⟨htake, hbe, fun hlt => by rw [hbe, Nat.mod_eq_of_lt hlt], fun hge => ?_⟩
  refine ⟨by rw [hbe]; omega, fun c bo e hret => ?_⟩
  intro hc
  rcases extract_ret_body env2 out c bo e hret with h1 | h1 | h1
  · exact Option.noConfusion (h1.symm.trans hc)
  · have hob : out = b := Option.some.inj (h1.symm.trans hc)
    have := congrArg List.length hob
    omega
  · have hob : (out.drop 4).take (beUint32 out) = b := Option.some.inj (h1.symm.trans hc)
    have hlen2 := congrArg List.length hob
    rw [List.length_take, hbe] at hlen2
    have hmin := Nat.min_le_left (b.length % 2 ^ 32) ((out.drop 4).length)
    omega

theorem c10_uint32_truncation_witness :
    inject env0 span0 [7] = .ok [0, 0, 0, 1, 7, 42] ∧
      (([0, 0, 0, 1, 7, 42] : List Nat).take 4 = putUint32 (([7] : List Nat).length % 2 ^ 32) ∧
       beUint32 [0, 0, 0, 1, 7, 42] = ([7] : List Nat).length % 2 ^ 32 ∧
       (([7] : List Nat).length < 2 ^ 32 → beUint32 [0, 0, 0, 1, 7, 42] = ([7] : List Nat).length) ∧
       (2 ^ 32 ≤ ([7] : List Nat).length →
         beUint32 [0, 0, 0, 1, 7, 42] ≠ ([7] : List Nat).length ∧
         ∀ c bo e, extract env0 [0, 0, 0, 1, 7, 42] = .ret c bo e → bo ≠ some [7])) :=
  ⟨rfl, c10_uint32_truncation env0 env0 span0 [7] [0, 0, 0, 1, 7, 42] rfl⟩
